import Mathlib

/-!
Verification of the PapayaMeter sensor protocol layer.

Shallow embedding of the frame codec, distance classification, proximity
frame validation, tamper trigger logic and the telemetry dispatch queue,
translated from the Python sources under `src/`.  Byte streams are modelled
as `List Nat` (each element a byte value), machine integers as `Nat`/`Int`
with explicit masking, clock readings as `ℚ`, real-valued sensor math as
`ℝ`, and fallible reads as `Option`/`Except`.
-/

namespace Lidar

/-- One step of the CRC-16-CCITT loop of `create_crc` in
`src/utility/lidar.py` (lines 13–22): the sequential assignments of the
Python loop body rendered as a chain of shadowing `let`s. -/
def crcStep (crc byte : Nat) : Nat :=
  let code := ((crc >>> 8) &&& 0xFF) ^^^ (byte &&& 0xFF)
  let code := code ^^^ (code >>> 4)
  let crc := ((crc <<< 8) &&& 0xFFFF) ^^^ code
  let code := (code <<< 5) &&& 0xFFFF
  let crc := crc ^^^ code
  let code := (code <<< 7) &&& 0xFFFF
  let crc := crc ^^^ code
  crc

/-- Function `create_crc` from `src/utility/lidar.py` (and identically
`src/utility/lidar2.py`): fold of `crcStep` with seed 0. -/
def create_crc (data : List Nat) : Nat := data.foldl crcStep 0

/-- First stage of `crcStep`: the initial value of `code`. -/
def crcCode (crc byte : Nat) : Nat := ((crc >>> 8) &&& 0xFF) ^^^ (byte &&& 0xFF)

/-- Second stage of `crcStep`: `code ^= code >> 4`. -/
def crcMix (x : Nat) : Nat := x ^^^ (x >>> 4)

/-- Final stage of `crcStep`: folding the mixed code into the shifted
state. -/
def crcOut (crc x : Nat) : Nat :=
  ((((crc <<< 8) &&& 0xFFFF) ^^^ x) ^^^ ((x <<< 5) &&& 0xFFFF)) ^^^
    ((((x <<< 5) &&& 0xFFFF) <<< 7) &&& 0xFFFF)

/-- The contribution of the high byte of the state to `crcStep s 0`. -/
def crcZhi (h : Nat) : Nat :=
  let code := h ^^^ (h >>> 4)
  (code ^^^ ((code <<< 5) &&& 0xFFFF)) ^^^
    ((((code <<< 5) &&& 0xFFFF) <<< 7) &&& 0xFFFF)

/-- The reference CRC recurrence exactly as the specification states it
(§4.1): `code = high_byte(crc) XOR byte; code ^= code>>4;
crc = (crc<<8) & 0xFFFF; crc ^= code; code = (code<<5) & 0xFFFF;
crc ^= code; code = (code<<7) & 0xFFFF; crc ^= code`.  Stated from the
spec's words for comparison with `crcStep`. -/
def crcSpecStep (crc byte : Nat) : Nat :=
  let code := (crc >>> 8) ^^^ byte
  let code := code ^^^ (code >>> 4)
  let crc := ((crc <<< 8) &&& 0xFFFF) ^^^ code
  let code := (code <<< 5) &&& 0xFFFF
  let crc := crc ^^^ code
  let code := (code <<< 7) &&& 0xFFFF
  let crc := crc ^^^ code
  crc

/-- Fold of the spec's reference recurrence with seed 0. -/
def create_crc_spec (data : List Nat) : Nat := data.foldl crcSpecStep 0

/-- Model of `struct.pack('<H', n)`: two little-endian bytes. -/
def toLE16 (n : Nat) : List Nat := [n % 256, (n >>> 8) % 256]

/-- Model of `struct.unpack('<H', b)[0]` on a buffer read as a byte list (first byte
least significant). -/
def fromLE16 (l : List Nat) : Nat := l.getD 0 0 + 256 * l.getD 1 0

/-- Model of `struct.unpack('<H', b)` including its failure behaviour: raises
`struct.error` unless the buffer holds exactly 2 bytes. -/
def unpackLE16 (l : List Nat) : Except String Nat :=
  match l with
  | [a, b] => .ok (a + 256 * b)
  | _ => .error "struct.error: unpack requires a buffer of 2 bytes"

/-- Function `send_command` from `src/utility/lidar.py` (lines 31–45), returning the
bytes written to the serial port: start byte `0xAA`, little-endian flags
(payload length shifted into bits 6–15, write bit clear), payload (command
id then data), then a little-endian CRC over header+payload. -/
def send_command (command_id : Nat) (data : List Nat) : List Nat :=
  let payload := command_id :: data
  let flags := payload.length <<< 6
  let full_packet_for_crc := 0xAA :: (toLE16 flags ++ payload)
  full_packet_for_crc ++ toLE16 (create_crc full_packet_for_crc)

/-- Function `read_response` from `src/utility/lidar.py` (lines 47–68).  The serial
input is modelled as the list of bytes available in arrival order; each
`ser.read(n)` takes up to `n` bytes off the front. -/
def read_response (s : List Nat) : Option (List Nat) :=
  match s with
  | [] => none
  | start :: rest =>
    if start = 0xAA then
      let flags_raw := rest.take 2
      if flags_raw.length < 2 then none
      else
        let flags := fromLE16 flags_raw
        let payload_len := flags >>> 6
        let payload := (rest.drop 2).take payload_len
        if payload.length < payload_len then none
        else
          let crc_raw := ((rest.drop 2).drop payload_len).take 2
          if crc_raw.length < 2 then none
          else
            let crc_received := fromLE16 crc_raw
            if create_crc (0xAA :: (flags_raw ++ payload)) = crc_received then
              some payload
            else none
    else none

/-- Function `read_response` from `src/utility/lidar.py` again, but with every
potentially raising operation (`struct.unpack` on a short buffer) modelled
explicitly in `Except`, so that absence of exceptions is a theorem rather
than a modelling assumption. -/
def read_responseE (s : List Nat) : Except String (Option (List Nat)) :=
  match s with
  | [] => .ok none
  | start :: rest =>
    if start = 0xAA then
      let flags_raw := rest.take 2
      if flags_raw.length < 2 then .ok none
      else
        match unpackLE16 flags_raw with
        | .error e => .error e
        | .ok flags =>
          let payload_len := flags >>> 6
          let payload := (rest.drop 2).take payload_len
          if payload.length < payload_len then .ok none
          else
            let crc_raw := ((rest.drop 2).drop payload_len).take 2
            if crc_raw.length < 2 then .ok none
            else
              match unpackLE16 crc_raw with
              | .error e => .error e
              | .ok crc_received =>
                if create_crc (0xAA :: (flags_raw ++ payload)) = crc_received then
                  .ok (some payload)
                else .ok none
    else .ok none

/-- Flip bit `j` of the byte at index `i` of a frame. -/
def flipBit (l : List Nat) (i j : Nat) : List Nat :=
  l.set i (l.getD i 0 ^^^ 2 ^ j)

/-- The per-reading status record built in `run_detector`
(`src/utility/lidar.py` lines 146–162), timestamp omitted. -/
structure Status where
  distance_cm : Int
  out_of_range : Bool
deriving DecidableEq, Repr

/-- The classification logic of `run_detector` (lines 146–162): the decoded
signed 16-bit value is flagged out-of-range when it is the sentinel −100
or non-positive; an in-range reading additionally requires
`distance_cm <= max_range`. -/
def classifyDistance (max_range : Int) (distance_cm : Int) : Status :=
  let out_of_range : Bool := decide (distance_cm = -100 ∨ distance_cm ≤ 0)
  if !out_of_range && decide (distance_cm ≤ max_range) then
    { distance_cm := distance_cm, out_of_range := false }
  else
    { distance_cm := if !out_of_range then distance_cm else -1,
      out_of_range := true }

/-- The error payload built by `send_error` (lines 88–101), description
omitted. -/
structure ErrorEvent where
  errType : String
  errCode : String
  severity : String
  retry_count : Nat
deriving DecidableEq, Repr

/-- The mutable loop state of `run_detector`: the retry counter and the
per-kind cooldown timestamp (`last_error_time`, initially 0). -/
structure DetectorState where
  retry_count : Nat
  last_error_time : ℚ
deriving DecidableEq, Repr

/-- Function `send_error` from lines 88–101 (with a callback installed): emits the
error payload only when the cooldown has elapsed since the last emission,
and then records the emission time. -/
def send_error (error_cooldown current_time : ℚ) (st : DetectorState) :
    DetectorState × Option ErrorEvent :=
  if error_cooldown < current_time - st.last_error_time then
    ({ st with last_error_time := current_time },
      some { errType := "communication_timeout", errCode := "LD_ERR_001",
             severity := "warning", retry_count := st.retry_count })
  else (st, none)

/-- One iteration of the polling loop of `run_detector` (lines 129–192).
`res` is the decode outcome of this poll: `some v` when `read_response`
returned a frame whose bytes 1–2 unpacked to the signed value `v`, `none`
when no frame was decoded.  Returns the new state, the emitted status (on
decode) and the emitted error event (at most one, rate limited). -/
def detectorStep (max_range : Int) (error_cooldown t : ℚ) (res : Option Int)
    (st : DetectorState) : DetectorState × Option Status × Option ErrorEvent :=
  match res with
  | some v =>
    ({ st with retry_count := 0 }, some (classifyDistance max_range v), none)
  | none =>
    let rc := st.retry_count + 1
    let st1 := { st with retry_count := rc }
    if 50 ≤ rc ∧ rc % 50 = 0 then
      let out := send_error error_cooldown t st1
      (out.1, none, out.2)
    else (st1, none, none)

/-- A run of the polling loop over a list of (time, decode outcome) pairs,
collecting the emitted error events. -/
def runDetector (max_range : Int) (error_cooldown : ℚ)
    (steps : List (ℚ × Option Int)) (st : DetectorState) :
    DetectorState × List ErrorEvent :=
  steps.foldl
    (fun acc p =>
      let out := detectorStep max_range error_cooldown p.1 p.2 acc.1
      (out.1, acc.2 ++ out.2.2.toList))
    (st, [])

/-- The spec's §8 scenario trace: 50 polls at 100 ms intervals (5 s)
starting at time 100 s, each with the same decode outcome. -/
def scenarioTrace (res : Option Int) : List (ℚ × Option Int) :=
  (List.range 50).map (fun (i : ℕ) => (100 + (i : ℚ) / 10, res))

end Lidar

namespace Lidar2

/-- Function `read_response` from `src/utility/lidar2.py` (lines 41–56): identical
framing to `Lidar.read_response`, but `struct.unpack` is applied to the raw
reads without any length check, so a truncated stream raises `struct.error`
instead of returning `None`. -/
def read_response (s : List Nat) : Except String (Option (List Nat)) :=
  match s with
  | [] => .ok none
  | start :: rest =>
    if start = 0xAA then
      let flags_raw := rest.take 2
      match Lidar.unpackLE16 flags_raw with
      | .error e => .error e
      | .ok flags =>
        let payload_len := flags >>> 6
        let payload := (rest.drop 2).take payload_len
        match Lidar.unpackLE16 (((rest.drop 2).drop payload_len).take 2) with
        | .error e => .error e
        | .ok crc_received =>
          if Lidar.create_crc (0xAA :: (flags_raw ++ payload)) = crc_received then
            .ok (some payload)
          else .ok none
    else .ok none

end Lidar2

namespace Ultrasonic

/-- Method `UltrasonicSensor.read_distance` from `src/utility/ultrasonic.py`
(lines 30–58).  `connected` models `self.ser` being set, `in_waiting` the
number of buffered bytes, `s` the buffered byte stream; the returned
distance is in centimetres (the Python code divides the mm value by 10.0;
the division is modelled exactly in `ℚ`). -/
def read_distance (connected : Bool) (in_waiting : Nat) (s : List Nat) :
    Option ℚ :=
  if !connected then none
  else if 4 ≤ in_waiting then
    match s with
    | header :: rest =>
      if header = 0xFF then
        match rest.take 3 with
        | [h_data, l_data, checksum] =>
          if (0x0FF + h_data + l_data) &&& 0xFF = checksum then
            some ((((h_data <<< 8) + l_data : ℕ) : ℚ) / 10)
          else none
        | _ => none
      else none
    | [] => none
  else none

/-- The payload passed to the observer callback in `run_ultrasonic_check`
(lines 109–115). -/
structure ProxEvent where
  sensor : String
  distance_cm : ℚ
  threshold_cm : ℚ
  alert : Bool
deriving DecidableEq, Repr

/-- The per-sensor emission logic of one cycle of `run_ultrasonic_check`
(lines 100–119): given this cycle's read result, the list of observer
callback invocations it produces. -/
def cycleEmissions (name : String) (threshold : ℚ) (reading : Option ℚ) :
    List ProxEvent :=
  match reading with
  | none => []
  | some distance =>
    if 0 < distance then
      [{ sensor := name, distance_cm := distance, threshold_cm := threshold,
         alert := decide (distance < threshold) }]
    else []

end Ultrasonic

namespace Tamper

/-- A 3-component sensor vector. -/
abbrev V3 := ℝ × ℝ × ℝ

/-- Function `angle` from `src/utility/tamper.py` (lines 44–50):
`math.degrees(math.acos(...))` of the clamped normalised dot product, with
an explicit guard for a zero product of norms. -/
noncomputable def angle (v1 v2 : V3) : ℝ :=
  let dot := v1.1 * v2.1 + v1.2.1 * v2.2.1 + v1.2.2 * v2.2.2
  let n1 := Real.sqrt (v1.1 * v1.1 + v1.2.1 * v1.2.1 + v1.2.2 * v1.2.2)
  let n2 := Real.sqrt (v2.1 * v2.1 + v2.2.1 * v2.2.1 + v2.2.2 * v2.2.2)
  if n1 * n2 = 0 then 0
  else Real.arccos (max (-1) (min 1 (dot / (n1 * n2)))) * (180 / Real.pi)

/-- The linear deviation magnitude computed in `run_tamper_monitor`
(lines 119–123): Euclidean norm of the difference between the current
accelerometer sample and the calibration baseline. -/
noncomputable def lin_mag (baseline accel : V3) : ℝ :=
  Real.sqrt ((accel.1 - baseline.1) * (accel.1 - baseline.1) +
    (accel.2.1 - baseline.2.1) * (accel.2.1 - baseline.2.1) +
    (accel.2.2 - baseline.2.2) * (accel.2.2 - baseline.2.2))

/-- The gyro magnitude computed in `run_tamper_monitor` (line 124). -/
noncomputable def gyro_mag (gyro : V3) : ℝ :=
  Real.sqrt (gyro.1 * gyro.1 + gyro.2.1 * gyro.2.1 + gyro.2.2 * gyro.2.2)

/-- Model of `collections.deque(maxlen := n)` append: the oldest entries are dropped
once the window is full. -/
def pushWindow {α : Type} (maxlen : Nat) (w : List α) (x : α) : List α :=
  let w1 := w ++ [x]
  if maxlen < w1.length then w1.drop (w1.length - maxlen) else w1

/-- Model of `sum(g > ths for g in window)`: the number of window samples strictly
above the threshold. -/
noncomputable def countAbove (ths : ℝ) : List ℝ → Nat
  | [] => 0
  | x :: xs => (if ths < x then 1 else 0) + countAbove ths xs

/-- The per-sample trigger decision of `run_tamper_monitor`
(`src/utility/tamper.py` lines 116–139): compute the linear deviation and
gyro magnitudes, append them to the sliding windows, compute the tilt via
`angle`, and trigger on
`(tilt > tilt_ths and sustained_gyro) or sustained_lin or strong_event`
where `sustained_* = sum(samples > ths) > 0.6 * len(window)` and
`strong_event = lin_mag > 0.4 or gyro_mag > 120`. -/
noncomputable def tamperTrigger (tilt_ths gyro_ths linear_ths : ℝ)
    (window_size : Nat) (baseline accel gyro : V3)
    (gyro_window lin_window : List ℝ) : Prop :=
  let lin_window1 := pushWindow window_size lin_window (lin_mag baseline accel)
  let gyro_window1 := pushWindow window_size gyro_window (gyro_mag gyro)
  let tilt := angle accel baseline
  let sustained_gyro :=
    0.6 * (gyro_window1.length : ℝ) < (countAbove gyro_ths gyro_window1 : ℝ)
  let sustained_lin :=
    0.6 * (lin_window1.length : ℝ) < (countAbove linear_ths lin_window1 : ℝ)
  let strong_event := 0.4 < lin_mag baseline accel ∨ 120 < gyro_mag gyro
  (tilt_ths < tilt ∧ sustained_gyro) ∨ sustained_lin ∨ strong_event

/-- The trigger condition exactly as the claim words it, with "at least 60%
of window samples exceed the threshold" (a non-strict fraction), stated
from the spec's words for comparison with `tamperTrigger`. -/
noncomputable def claimTrigger (tilt_ths gyro_ths linear_ths : ℝ)
    (window_size : Nat) (baseline accel gyro : V3)
    (gyro_window lin_window : List ℝ) : Prop :=
  let lin_window1 := pushWindow window_size lin_window (lin_mag baseline accel)
  let gyro_window1 := pushWindow window_size gyro_window (gyro_mag gyro)
  let tilt := angle accel baseline
  let sustained_gyro :=
    0.6 * (gyro_window1.length : ℝ) ≤ (countAbove gyro_ths gyro_window1 : ℝ)
  let sustained_lin :=
    0.6 * (lin_window1.length : ℝ) ≤ (countAbove linear_ths lin_window1 : ℝ)
  let strong_event := 0.4 < lin_mag baseline accel ∨ 120 < gyro_mag gyro
  (tilt_ths < tilt ∧ sustained_gyro) ∨ sustained_lin ∨ strong_event

end Tamper

namespace Telemetry

/-- The observable state of the dispatch queue: pending payloads in queue
order, and payloads already handed to the sink. -/
structure QueueState (α : Type) where
  queue : List α
  published : List α
deriving DecidableEq, Repr

/-- One iteration of the method of `TelemetryPublisher` named `_publishing_worker`
(`src/services/telemetry_publisher.py` lines 63–90): pop the head (or idle
on an empty queue / `queue.Empty` timeout); without a live connection,
best-effort reconnect and push the payload back to the tail; with one,
publish and discard.  `connected` is the connection status observed this
iteration. -/
def workerStep {α : Type} (connected : Bool) (s : QueueState α) :
    QueueState α :=
  match s.queue with
  | [] => s
  | p :: rest =>
    if connected then { queue := rest, published := s.published ++ [p] }
    else { queue := rest ++ [p], published := s.published }

/-- A run of the worker over a sequence of per-iteration connection
statuses. -/
def workerRun {α : Type} (conns : List Bool) (s : QueueState α) :
    QueueState α :=
  conns.foldl (fun st c => workerStep c st) s

end Telemetry

/-! ## Helper lemmas: XOR algebra of the CRC step -/

namespace Lidar

theorem nxor_left_comm (a b c : Nat) : a ^^^ (b ^^^ c) = b ^^^ (a ^^^ c) := by
  rw [← Nat.xor_assoc, Nat.xor_comm a b, Nat.xor_assoc]

theorem xor_shiftRight_distrib (a b n : Nat) :
    (a ^^^ b) >>> n = (a >>> n) ^^^ (b >>> n) := by
  apply Nat.eq_of_testBit_eq
  intro i
  simp

theorem xor_shiftLeft_distrib (a b n : Nat) :
    (a ^^^ b) <<< n = (a <<< n) ^^^ (b <<< n) := by
  apply Nat.eq_of_testBit_eq
  intro i
  simp [Bool.and_xor_distrib_left]

theorem crcStep_stage_eq (c b : Nat) :
    crcStep c b = crcOut c (crcMix (crcCode c b)) := rfl

theorem crcCode_xor (a b c d : Nat) :
    crcCode (a ^^^ b) (c ^^^ d) = crcCode a c ^^^ crcCode b d := by
  simp only [crcCode, Nat.and_xor_distrib_right, xor_shiftRight_distrib]
  simp only [Nat.xor_assoc]
  simp [Nat.xor_comm, nxor_left_comm]

theorem crcMix_xor (x y : Nat) : crcMix (x ^^^ y) = crcMix x ^^^ crcMix y := by
  simp only [crcMix, xor_shiftRight_distrib]
  simp only [Nat.xor_assoc]
  simp [Nat.xor_comm, nxor_left_comm]

theorem crcOut_xor (c1 c2 x y : Nat) :
    crcOut (c1 ^^^ c2) (x ^^^ y) = crcOut c1 x ^^^ crcOut c2 y := by
  simp only [crcOut, Nat.and_xor_distrib_right, xor_shiftLeft_distrib]
  simp only [Nat.xor_assoc]
  simp [Nat.xor_comm, nxor_left_comm]

theorem crcStep_xor (a b c d : Nat) :
    crcStep (a ^^^ b) (c ^^^ d) = crcStep a c ^^^ crcStep b d := by
  simp only [crcStep_stage_eq, crcCode_xor, crcMix_xor, crcOut_xor]

theorem crcStep_lt (s b : Nat) : crcStep s b < 2 ^ 16 := by
  have hand16 : ∀ x : Nat, x &&& 0xFFFF < 2 ^ 16 := fun x =>
    lt_of_le_of_lt Nat.and_le_right (by norm_num)
  have hand8 : ∀ x : Nat, x &&& 0xFF < 2 ^ 8 := fun x =>
    lt_of_le_of_lt Nat.and_le_right (by norm_num)
  have hcode : ((s >>> 8) &&& 0xFF) ^^^ (b &&& 0xFF) < 2 ^ 8 :=
    Nat.xor_lt_two_pow (hand8 _) (hand8 _)
  have hsr : (((s >>> 8) &&& 0xFF) ^^^ (b &&& 0xFF)) >>> 4 < 2 ^ 8 :=
    lt_of_le_of_lt
      (by rw [Nat.shiftRight_eq_div_pow]; exact Nat.div_le_self _ _) hcode
  simp only [crcStep]
  refine Nat.xor_lt_two_pow (Nat.xor_lt_two_pow (Nat.xor_lt_two_pow (hand16 _)
    ?_) (hand16 _)) (hand16 _)
  exact lt_trans (Nat.xor_lt_two_pow hcode hsr) (by norm_num)

theorem foldl_crc_lt : ∀ (l : List Nat) (s : Nat), s < 2 ^ 16 →
    List.foldl crcStep s l < 2 ^ 16 := by
  intro l
  induction l with
  | nil => intro s hs; simpa using hs
  | cons b rest ih =>
    intro s _
    rw [List.foldl_cons]
    exact ih (crcStep s b) (crcStep_lt s b)

theorem create_crc_lt (l : List Nat) : create_crc l < 2 ^ 16 :=
  foldl_crc_lt l 0 (by norm_num)

theorem crcStep_zero_split (s : Nat) (hs : s < 2 ^ 16) :
    crcStep s 0 = (256 * (s % 256)) ^^^ crcZhi (s / 256) := by
  have hdiv : s >>> 8 = s / 256 := by
    simp [Nat.shiftRight_eq_div_pow]
  have hdivlt : s / 256 < 256 := by omega
  have h1 : (s >>> 8) &&& 0xFF = s / 256 := by
    rw [hdiv, show (0xFF : Nat) = 2 ^ 8 - 1 from rfl,
      Nat.and_pow_two_sub_one_eq_mod]
    omega
  have h2 : (s <<< 8) &&& 0xFFFF = 256 * (s % 256) := by
    rw [Nat.shiftLeft_eq, show (0xFFFF : Nat) = 2 ^ 16 - 1 from rfl,
      Nat.and_pow_two_sub_one_eq_mod, show (2:Nat) ^ 8 = 256 from rfl,
      show (2:Nat) ^ 16 = 256 * 256 from rfl, Nat.mul_comm s 256,
      Nat.mul_mod_mul_left]
  simp only [crcStep, crcZhi, h1, h2, Nat.zero_and, Nat.and_zero,
    Nat.xor_zero]
  simp only [Nat.xor_assoc]

set_option maxRecDepth 10000 in
theorem crcZhi_mod_eq_zero : ∀ h : Fin 256, crcZhi h.val % 256 = 0 → h.val = 0 := by
  decide

set_option maxRecDepth 10000 in
theorem crcStep_byte_ne_zero : ∀ b : Fin 256, b.val ≠ 0 → crcStep 0 b.val ≠ 0 := by
  decide

theorem crcStep_zero_inj (s : Nat) (hs : s < 2 ^ 16) (h : crcStep s 0 = 0) :
    s = 0 := by
  rw [crcStep_zero_split s hs] at h
  have heq : 256 * (s % 256) = crcZhi (s / 256) := Nat.xor_eq_zero.mp h
  have hmod : crcZhi (s / 256) % 256 = 0 := by
    rw [← heq]; omega
  have hdivlt : s / 256 < 256 := by omega
  have hzero := crcZhi_mod_eq_zero ⟨s / 256, hdivlt⟩ hmod
  simp only at hzero
  rw [hzero] at heq
  have hz : crcZhi 0 = 0 := by decide
  omega

theorem crcStep_state_ne (s : Nat) (hs : s < 2 ^ 16) (h : s ≠ 0) :
    crcStep s 0 ≠ 0 :=
  fun hz => h (crcStep_zero_inj s hs hz)

theorem foldl_zeros_ne : ∀ (k s : Nat), s < 2 ^ 16 → s ≠ 0 →
    List.foldl crcStep s (List.replicate k 0) ≠ 0 := by
  intro k
  induction k with
  | zero => intro s _ h; simpa using h
  | succ n ih =>
    intro s hs h
    rw [List.replicate_succ, List.foldl_cons]
    exact ih (crcStep s 0) (crcStep_lt s 0) (crcStep_state_ne s hs h)

theorem foldl_zeros_zero (n : Nat) :
    List.foldl crcStep 0 (List.replicate n 0) = 0 := by
  induction n with
  | zero => rfl
  | succ k ih =>
    rw [List.replicate_succ, List.foldl_cons]
    have h0 : crcStep 0 0 = 0 := by decide
    rw [h0, ih]

theorem crc_delta_ne_zero (n k j : Nat) (hj : j < 8) :
    create_crc (List.replicate n 0 ++ (2 ^ j) :: List.replicate k 0) ≠ 0 := by
  unfold create_crc
  rw [List.foldl_append, foldl_zeros_zero, List.foldl_cons]
  have hb : 2 ^ j < 256 := by
    calc (2:Nat) ^ j ≤ 2 ^ 7 := Nat.pow_le_pow_right (by norm_num) (by omega)
      _ < 256 := by norm_num
  have hne : (2:Nat) ^ j ≠ 0 := by positivity
  exact foldl_zeros_ne k (crcStep 0 (2 ^ j)) (crcStep_lt 0 (2 ^ j))
    (crcStep_byte_ne_zero ⟨2 ^ j, hb⟩ hne)

theorem foldl_crcStep_xor : ∀ (xs ys : List Nat) (s1 s2 : Nat),
    xs.length = ys.length →
    List.foldl crcStep (s1 ^^^ s2) (List.zipWith (· ^^^ ·) xs ys) =
      List.foldl crcStep s1 xs ^^^ List.foldl crcStep s2 ys := by
  intro xs
  induction xs with
  | nil =>
    intro ys s1 s2 h
    have hy : ys = [] := List.eq_nil_of_length_eq_zero (by simpa using h.symm)
    simp [hy]
  | cons x xt ih =>
    intro ys s1 s2 h
    match ys with
    | [] => simp at h
    | y :: yt =>
      simp only [List.zipWith_cons_cons, List.foldl_cons]
      rw [crcStep_xor]
      exact ih yt (crcStep s1 x) (crcStep s2 y) (by simpa using h)

theorem zipWith_xor_zero : ∀ xs : List Nat,
    List.zipWith (· ^^^ ·) xs (List.replicate xs.length 0) = xs := by
  intro xs
  induction xs with
  | nil => rfl
  | cons x xt ih => simp [List.replicate_succ, ih]

theorem zipWith_xor_zero' (xs : List Nat) (n : Nat) (h : n = xs.length) :
    List.zipWith (· ^^^ ·) xs (List.replicate n 0) = xs := by
  rw [h]; exact zipWith_xor_zero xs

theorem create_crc_flip (m : List Nat) (i j : Nat) (hi : i < m.length)
    (hj : j < 8) :
    create_crc (m.set i (m.getD i 0 ^^^ 2 ^ j)) ≠ create_crc m := by
  have hgetD : m.getD i 0 = m[i] := List.getD_eq_getElem m 0 hi
  have hset : m.set i (m.getD i 0 ^^^ 2 ^ j) =
      m.take i ++ (m.getD i 0 ^^^ 2 ^ j) :: m.drop (i + 1) := by
    rw [List.set_eq_take_append_cons_drop, if_pos hi]
  have hm : m = m.take i ++ m.getD i 0 :: m.drop (i + 1) := by
    conv_lhs => rw [← List.take_append_drop i m, List.drop_eq_getElem_cons hi]
    rw [hgetD]
  set delta : List Nat :=
    List.replicate i 0 ++ (2 ^ j) :: List.replicate (m.length - i - 1) 0
    with hdelta
  have hlen_take : (m.take i).length = i := by
    rw [List.length_take]; omega
  have hlen_drop : (m.drop (i + 1)).length = m.length - i - 1 := by
    rw [List.length_drop]; omega
  have hzip : List.zipWith (· ^^^ ·) m delta =
      m.set i (m.getD i 0 ^^^ 2 ^ j) := by
    conv_lhs => rw [hm]
    rw [hdelta,
      List.zipWith_append _ _ _ _ _ (by rw [hlen_take, List.length_replicate]),
      List.zipWith_cons_cons]
    rw [zipWith_xor_zero' (m.take i) i hlen_take.symm,
      zipWith_xor_zero' (m.drop (i + 1)) _ hlen_drop.symm, hset]
  have hlen : m.length = delta.length := by
    rw [hdelta]
    simp only [List.length_append, List.length_replicate, List.length_cons]
    omega
  have hsplit : create_crc (m.set i (m.getD i 0 ^^^ 2 ^ j)) =
      create_crc m ^^^ create_crc delta := by
    rw [← hzip]
    unfold create_crc
    have h0 : (0 : Nat) = 0 ^^^ 0 := rfl
    conv_lhs => rw [h0]
    exact foldl_crcStep_xor m delta 0 0 hlen
  rw [hsplit]
  intro hcontra
  have hd0 : create_crc delta = 0 := by
    have hcl := Nat.xor_cancel_left (create_crc m) (create_crc delta)
    rw [← hcl, hcontra, Nat.xor_self]
  exact crc_delta_ne_zero i (m.length - i - 1) j hj hd0

theorem xor_pow_ne (a j : Nat) : a ^^^ 2 ^ j ≠ a := by
  intro h
  have h2 : (2:Nat) ^ j = 0 := by
    have hcl := Nat.xor_cancel_left a (2 ^ j)
    rw [h] at hcl
    simpa [Nat.xor_self] using hcl.symm
  exact absurd h2 (by positivity)

end Lidar

namespace Lidar

theorem read_response_frame (f0 f1 : Nat) (payload crcb : List Nat)
    (hp : (f0 + 256 * f1) >>> 6 = payload.length) (hc : crcb.length = 2) :
    read_response (0xAA :: f0 :: f1 :: (payload ++ crcb)) =
      if create_crc (0xAA :: f0 :: f1 :: payload) = fromLE16 crcb then
        some payload
      else none := by
  have htake2 : (f0 :: f1 :: (payload ++ crcb)).take 2 = [f0, f1] := rfl
  have hdrop2 : (f0 :: f1 :: (payload ++ crcb)).drop 2 = payload ++ crcb := rfl
  have hfrom : fromLE16 [f0, f1] = f0 + 256 * f1 := rfl
  simp only [read_response, htake2, hdrop2, hfrom, hp, List.take_left,
    List.drop_left, List.length_cons, List.length_nil]
  rw [if_pos trivial, List.take_of_length_le (le_of_eq hc)]
  simp [hc, List.cons_append]

end Lidar

namespace Lidar

theorem getD_append_left {l r : List Nat} {n : Nat} (h : n < l.length) :
    (l ++ r).getD n 0 = l.getD n 0 := by
  simp [List.getD_eq_getElem?_getD, List.getElem?_append_left h]

theorem getD_append_right (l r : List Nat) (k : Nat) :
    (l ++ r).getD (l.length + k) 0 = r.getD k 0 := by
  simp [List.getD_eq_getElem?_getD,
    List.getElem?_append_right (Nat.le_add_right l.length k),
    Nat.add_sub_cancel_left]

/-- C1: Frame codec round-trip and single-bit corruption rejection: for
every command id and data bytes within the encoder's domain, decoding the
frame produced by `send_command` recovers exactly the payload (command id
followed by data); and flipping any single bit of the frame in the payload
or CRC region (i.e. anywhere past the 3 header bytes) makes `read_response`
return `none`. -/
theorem frame_roundtrip_and_single_bit_rejection
    (cmd : Nat) (data : List Nat) (_hcmd : cmd < 256)
    (_hdata : ∀ b ∈ data, b < 256) (hlen : data.length ≤ 1022) :
    read_response (send_command cmd data) = some (cmd :: data) ∧
    ∀ i j, 3 ≤ i → i < (send_command cmd data).length → j < 8 →
      read_response (flipBit (send_command cmd data) i j) = none := by
  have hplen1023 : (cmd :: data).length ≤ 1023 := by
    simp only [List.length_cons]; omega
  have hflags_lt : (cmd :: data).length <<< 6 < 2 ^ 16 := by
    rw [Nat.shiftLeft_eq]
    calc (cmd :: data).length * 2 ^ 6 ≤ 1023 * 2 ^ 6 :=
          Nat.mul_le_mul_right _ hplen1023
      _ < 2 ^ 16 := by norm_num
  have hf01 : ((cmd :: data).length <<< 6) % 256 +
      256 * ((((cmd :: data).length <<< 6) >>> 8) % 256) =
      (cmd :: data).length <<< 6 := by
    have hdiv : ((cmd :: data).length <<< 6) >>> 8 =
        ((cmd :: data).length <<< 6) / 256 := by
      simp [Nat.shiftRight_eq_div_pow]
    rw [hdiv]
    omega
  have hp : (((cmd :: data).length <<< 6) % 256 +
      256 * ((((cmd :: data).length <<< 6) >>> 8) % 256)) >>> 6 =
      (cmd :: data).length := by
    rw [hf01, Nat.shiftLeft_eq, Nat.shiftRight_eq_div_pow]
    exact Nat.mul_div_cancel _ (by norm_num)
  set f0 := ((cmd :: data).length <<< 6) % 256 with hf0def
  set f1 := (((cmd :: data).length <<< 6) >>> 8) % 256 with hf1def
  set m : List Nat := 0xAA :: f0 :: f1 :: (cmd :: data) with hmdef
  have hcrc_lt : create_crc m < 2 ^ 16 := create_crc_lt m
  set c0 := create_crc m % 256 with hc0def
  set c1 := (create_crc m >>> 8) % 256 with hc1def
  have hfromc : fromLE16 [c0, c1] = create_crc m := by
    have hdiv : create_crc m >>> 8 = create_crc m / 256 := by
      simp [Nat.shiftRight_eq_div_pow]
    simp only [fromLE16, List.getD_cons_zero, List.getD_cons_succ,
      hc0def, hc1def, hdiv]
    omega
  have hframe : send_command cmd data =
      0xAA :: f0 :: f1 :: ((cmd :: data) ++ [c0, c1]) := by
    simp only [send_command, toLE16, hmdef, hf0def, hf1def, hc0def, hc1def,
      List.cons_append, List.nil_append]
  have hmlen : m.length = data.length + 4 := by
    rw [hmdef]; simp
  constructor
  · rw [hframe, read_response_frame f0 f1 (cmd :: data) [c0, c1] hp rfl,
      if_pos]
    rw [hfromc, hmdef]
  · intro i j h3 hilt hj
    rw [hframe] at hilt
    simp only [List.length_cons, List.length_append, List.length_nil] at hilt
    by_cases hcase : i < data.length + 4
    · -- flip inside the CRC-protected message (a payload byte)
      obtain ⟨r, rfl⟩ : ∃ r, i = r + 3 := ⟨i - 3, by omega⟩
      have hr : r < (cmd :: data).length := by
        simp only [List.length_cons]; omega
      have hgd : (0xAA :: f0 :: f1 :: ((cmd :: data) ++ [c0, c1])).getD
          (r + 3) 0 = (cmd :: data).getD r 0 := by
        show ((cmd :: data) ++ [c0, c1]).getD r 0 = (cmd :: data).getD r 0
        exact getD_append_left hr
      have hsetfr : flipBit (0xAA :: f0 :: f1 :: ((cmd :: data) ++ [c0, c1]))
          (r + 3) j =
          0xAA :: f0 :: f1 :: (((cmd :: data).set r
            ((cmd :: data).getD r 0 ^^^ 2 ^ j)) ++ [c0, c1]) := by
        unfold flipBit
        rw [hgd]
        show 0xAA :: f0 :: f1 :: (((cmd :: data) ++ [c0, c1]).set r _) = _
        rw [List.set_append_left _ _ hr]
      rw [hframe, hsetfr]
      have hp' : (f0 + 256 * f1) >>> 6 =
          ((cmd :: data).set r ((cmd :: data).getD r 0 ^^^ 2 ^ j)).length := by
        rw [List.length_set]; exact hp
      rw [read_response_frame f0 f1 _ [c0, c1] hp' rfl, if_neg]
      rw [hfromc]
      have hbound : r + 3 < m.length := by
        simp only [List.length_cons] at hr
        rw [hmlen]
        omega
      have hms : m.set (r + 3) (m.getD (r + 3) 0 ^^^ 2 ^ j) =
          0xAA :: f0 :: f1 ::
            ((cmd :: data).set r ((cmd :: data).getD r 0 ^^^ 2 ^ j)) := by
        rw [hmdef]; rfl
      have hflip := create_crc_flip m (r + 3) j hbound hj
      rw [hms] at hflip
      exact hflip
    · -- flip inside the stored CRC bytes
      have hieq : i = data.length + 4 ∨ i = data.length + 5 := by omega
      have hgetc0 : (0xAA :: f0 :: f1 :: ((cmd :: data) ++ [c0, c1])).getD
          (data.length + 4) 0 = c0 := by
        show ((cmd :: data) ++ [c0, c1]).getD (data.length + 1) 0 = c0
        have h := getD_append_right (cmd :: data) [c0, c1] 0
        simpa using h
      have hgetc1 : (0xAA :: f0 :: f1 :: ((cmd :: data) ++ [c0, c1])).getD
          (data.length + 5) 0 = c1 := by
        show ((cmd :: data) ++ [c0, c1]).getD (data.length + 2) 0 = c1
        have h := getD_append_right (cmd :: data) [c0, c1] 1
        simpa [show data.length + 1 + 1 = data.length + 2 from rfl] using h
      have hcrcval : create_crc (0xAA :: f0 :: f1 :: (cmd :: data)) =
          c0 + 256 * c1 := by
        rw [show c0 + 256 * c1 = fromLE16 [c0, c1] from rfl]
        exact hfromc.symm
      rcases hieq with hieq | hieq
      · subst hieq
        rw [hframe]
        unfold flipBit
        rw [hgetc0]
        have hset : (0xAA :: f0 :: f1 :: ((cmd :: data) ++ [c0, c1])).set
            (data.length + 4) (c0 ^^^ 2 ^ j) =
            0xAA :: f0 :: f1 :: ((cmd :: data) ++ [c0 ^^^ 2 ^ j, c1]) := by
          show 0xAA :: f0 :: f1 :: (((cmd :: data) ++ [c0, c1]).set
            (data.length + 1) (c0 ^^^ 2 ^ j)) = _
          rw [List.set_append_right _ _ (by simp)]
          simp
        rw [hset,
          read_response_frame f0 f1 (cmd :: data) [c0 ^^^ 2 ^ j, c1] hp rfl,
          if_neg]
        intro hbad
        have hbad' : c0 + 256 * c1 = (c0 ^^^ 2 ^ j) + 256 * c1 := by
          rw [← hcrcval, hbad]
          rfl
        have hc : c0 ^^^ 2 ^ j = c0 := by omega
        exact xor_pow_ne c0 j hc
      · subst hieq
        rw [hframe]
        unfold flipBit
        rw [hgetc1]
        have hset : (0xAA :: f0 :: f1 :: ((cmd :: data) ++ [c0, c1])).set
            (data.length + 5) (c1 ^^^ 2 ^ j) =
            0xAA :: f0 :: f1 :: ((cmd :: data) ++ [c0, c1 ^^^ 2 ^ j]) := by
          show 0xAA :: f0 :: f1 :: (((cmd :: data) ++ [c0, c1]).set
            (data.length + 2) (c1 ^^^ 2 ^ j)) = _
          rw [List.set_append_right _ _ (by simp)]
          simp
        rw [hset,
          read_response_frame f0 f1 (cmd :: data) [c0, c1 ^^^ 2 ^ j] hp rfl,
          if_neg]
        intro hbad
        have hbad' : c0 + 256 * c1 = c0 + 256 * (c1 ^^^ 2 ^ j) := by
          rw [← hcrcval, hbad]
          rfl
        have hc : c1 ^^^ 2 ^ j = c1 := by omega
        exact xor_pow_ne c1 j hc

end Lidar

namespace Lidar

/-- Closed witness for C1 at a concrete frame: the distance request
(command 44 with payload byte 1) round-trips, and flipping bit 0 of the
first payload byte is rejected. -/
theorem frame_roundtrip_witness :
    read_response (send_command 44 [1]) = some [44, 1] ∧
    read_response (flipBit (send_command 44 [1]) 3 0) = none :=
  ⟨(frame_roundtrip_and_single_bit_rejection 44 [1] (by norm_num)
      (by intro b hb; simp at hb; omega) (by simp)).1,
   (frame_roundtrip_and_single_bit_rejection 44 [1] (by norm_num)
      (by intro b hb; simp at hb; omega) (by simp)).2 3 0 (by norm_num)
        (by norm_num [send_command, toLE16]) (by norm_num)⟩

theorem take2_pair (l : List Nat) (h : ¬(l.take 2).length < 2) :
    ∃ a b, l.take 2 = [a, b] := by
  match l with
  | [] => simp at h
  | [a] => simp at h
  | a :: b :: t => exact ⟨a, b, rfl⟩

theorem unpackLE16_pair (a b : Nat) :
    unpackLE16 [a, b] = .ok (fromLE16 [a, b]) := rfl

/-- C2: the decoder `read_response` of `src/utility/lidar.py` is total: on every
input byte stream its exception-aware embedding returns `.ok` of exactly
what the plain embedding returns — never an error.  (The companion
counterexample shows the same claim fails for `src/utility/lidar2.py`.) -/
theorem read_response_total (s : List Nat) :
    read_responseE s = Except.ok (read_response s) := by
  match s with
  | [] => rfl
  | start :: rest =>
    simp only [read_response, read_responseE]
    by_cases h : start = 0xAA
    · simp only [if_pos h]
      by_cases h2 : (rest.take 2).length < 2
      · simp only [if_pos h2]
      · obtain ⟨a, b, hab⟩ := take2_pair rest h2
        simp only [if_neg h2, hab, unpackLE16_pair]
        by_cases h3 : ((rest.drop 2).take (fromLE16 [a, b] >>> 6)).length <
            fromLE16 [a, b] >>> 6
        · simp only [if_pos h3]
          simp
        · simp only [if_neg h3]
          by_cases h4 : (((rest.drop 2).drop (fromLE16 [a, b] >>> 6)).take
              2).length < 2
          · simp only [if_pos h4]
            simp
          · obtain ⟨c, d, hcd⟩ :=
              take2_pair ((rest.drop 2).drop (fromLE16 [a, b] >>> 6)) h4
            simp only [if_neg h4, hcd, unpackLE16_pair]
            by_cases h5 : create_crc (0xAA :: ([a, b] ++
                (rest.drop 2).take (fromLE16 [a, b] >>> 6))) =
                fromLE16 [c, d]
            · simp only [if_pos h5]
              simp
            · simp only [if_neg h5]
              simp
    · simp only [if_neg h]

/-- C2 counterexample: the historical decoder `read_response` in
`src/utility/lidar2.py` raises `struct.error` on the truncated stream
consisting of the lone start byte `0xAA`, so "never raises" fails for it. -/
theorem lidar2_read_response_raises :
    Lidar2.read_response [0xAA] =
      Except.error "struct.error: unpack requires a buffer of 2 bytes" := rfl

theorem crcSpecStep_eq_crcStep (s b : Nat) (hs : s < 2 ^ 16) (hb : b < 256) :
    crcStep s b = crcSpecStep s b := by
  have h1 : (s >>> 8) &&& 0xFF = s >>> 8 := by
    rw [show (0xFF : Nat) = 2 ^ 8 - 1 from rfl,
      Nat.and_pow_two_sub_one_eq_mod]
    have : s >>> 8 = s / 256 := by simp [Nat.shiftRight_eq_div_pow]
    omega
  have h2 : b &&& 0xFF = b := by
    rw [show (0xFF : Nat) = 2 ^ 8 - 1 from rfl,
      Nat.and_pow_two_sub_one_eq_mod]
    omega
  simp only [crcStep, crcSpecStep, h1, h2]

theorem foldl_crc_eq_spec : ∀ (data : List Nat) (s : Nat), s < 2 ^ 16 →
    (∀ b ∈ data, b < 256) →
    List.foldl crcStep s data = List.foldl crcSpecStep s data := by
  intro data
  induction data with
  | nil => intro s _ _; rfl
  | cons b rest ih =>
    intro s hs hb
    rw [List.foldl_cons, List.foldl_cons,
      ← crcSpecStep_eq_crcStep s b hs (hb b (List.mem_cons_self b rest))]
    exact ih (crcStep s b) (crcStep_lt s b) (fun x hx => hb x (List.mem_cons_of_mem _ hx))

/-- C3: the function `create_crc` is bit-exact to the reference recurrence the spec
states, and its result always lies in `[0, 0xFFFF]`. -/
theorem create_crc_matches_reference (data : List Nat)
    (h : ∀ b ∈ data, b < 256) :
    create_crc data = create_crc_spec data ∧ create_crc data ≤ 0xFFFF := by
  constructor
  · exact foldl_crc_eq_spec data 0 (by norm_num) h
  · have := create_crc_lt data
    omega

/-- Closed witness for C3 on the CRC check bytes "123456789" (the standard
CRC-16/XMODEM check input, value 0x31C3). -/
theorem create_crc_matches_reference_witness :
    create_crc [49, 50, 51, 52, 53, 54, 55, 56, 57] =
      create_crc_spec [49, 50, 51, 52, 53, 54, 55, 56, 57] ∧
    create_crc [49, 50, 51, 52, 53, 54, 55, 56, 57] ≤ 0xFFFF :=
  create_crc_matches_reference [49, 50, 51, 52, 53, 54, 55, 56, 57]
    (by intro b hb; simp at hb; omega)

end Lidar

namespace Lidar

/-- C4: distance classification: for a decoded value `v` and a
non-negative configured `max_range`, the emitted status is
`{v, out_of_range := false}` exactly when `0 < v ≤ max_range`; the sentinel
−100 and non-positive values give `{-1, out_of_range := true}`; values
above `max_range` give `{v, out_of_range := true}` (value retained). -/
theorem classify_distance_cases (max_range v : Int) (hmr : 0 ≤ max_range) :
    (classifyDistance max_range v =
        { distance_cm := v, out_of_range := false } ↔
      0 < v ∧ v ≤ max_range) ∧
    (v ≤ 0 ∨ v = -100 →
      classifyDistance max_range v =
        { distance_cm := -1, out_of_range := true }) ∧
    (max_range < v →
      classifyDistance max_range v =
        { distance_cm := v, out_of_range := true }) := by
  refine ⟨⟨fun h => ?_, fun h => ?_⟩, fun h => ?_, fun h => ?_⟩
  · simp only [classifyDistance] at h
    split_ifs at h with hc hc2
    · simp only [Bool.and_eq_true, Bool.not_eq_true', decide_eq_false_iff_not,
        decide_eq_true_eq, not_or] at hc
      exact ⟨by omega, hc.2⟩
    · simp only [Status.mk.injEq] at h
      exact absurd h.2 (by simp)
    · simp only [Status.mk.injEq] at h
      exact absurd h.2 (by simp)
  · simp only [classifyDistance]
    rw [if_pos]
    simp only [Bool.and_eq_true, Bool.not_eq_true', decide_eq_false_iff_not,
      decide_eq_true_eq, not_or]
    exact ⟨⟨by omega, by omega⟩, h.2⟩
  · have hoor : v = -100 ∨ v ≤ 0 := by
      rcases h with h | h
      · exact Or.inr h
      · exact Or.inl h
    simp only [classifyDistance]
    split_ifs with hc hc2
    · simp only [Bool.and_eq_true, Bool.not_eq_true', decide_eq_false_iff_not,
        decide_eq_true_eq] at hc
      exact absurd hoor hc.1
    · simp only [Bool.not_eq_true', decide_eq_false_iff_not] at hc2
      exact absurd hoor hc2
    · rfl
  · have hoor : ¬(v = -100 ∨ v ≤ 0) := by
      rintro (h1 | h1) <;> omega
    simp only [classifyDistance]
    split_ifs with hc hc2
    · simp only [Bool.and_eq_true, Bool.not_eq_true', decide_eq_false_iff_not,
        decide_eq_true_eq] at hc
      exact absurd hc.2 (by omega)
    · rfl
    · simp only [Bool.not_eq_true', decide_eq_false_iff_not, not_not] at hc2
      exact absurd hc2 hoor

/-- Closed witness for C4 at concrete values (max range 500 cm): an
in-range reading, the sentinel, and an above-range reading. -/
theorem classify_distance_witness :
    classifyDistance 500 50 = { distance_cm := 50, out_of_range := false } ∧
    classifyDistance 500 (-100) =
      { distance_cm := -1, out_of_range := true } ∧
    classifyDistance 500 501 =
      { distance_cm := 501, out_of_range := true } :=
  ⟨(classify_distance_cases 500 50 (by norm_num)).1.mpr
      ⟨by norm_num, by norm_num⟩,
   (classify_distance_cases 500 (-100) (by norm_num)).2.1
      (Or.inr rfl),
   (classify_distance_cases 500 501 (by norm_num)).2.2 (by norm_num)⟩

end Lidar

namespace Ultrasonic

theorem read_distance_eval (header hd ld cd : Nat) :
    read_distance true 4 [header, hd, ld, cd] =
      if header = 0xFF then
        (if (0xFF + hd + ld) % 256 = cd then
          some ((((hd <<< 8) + ld : ℕ) : ℚ) / 10)
        else none)
      else none := by
  have hmask : (0x0FF + hd + ld) &&& 0xFF = (0xFF + hd + ld) % 256 := by
    rw [show (0xFF : Nat) = 2 ^ 8 - 1 from rfl,
      Nat.and_pow_two_sub_one_eq_mod]
  have hstep : read_distance true 4 [header, hd, ld, cd] =
      if header = 0xFF then
        (if (0x0FF + hd + ld) &&& 0xFF = cd then
          some ((((hd <<< 8) + ld : ℕ) : ℚ) / 10)
        else none)
      else none := rfl
  rw [hstep, hmask]

/-- C5: proximity frame validation: a 4-byte frame is accepted exactly
when the header is `0xFF` and `(0xFF + H + L) mod 256` equals the checksum
byte, in which case the returned distance is `((H<<8) + L) / 10`
centimetres; and changing exactly one of `H`, `L`, or the checksum byte of
a valid frame to any other byte value makes the check fail and return no
distance. -/
theorem proximity_frame_validation (header hd ld cd : Nat) (hh : hd < 256)
    (hl : ld < 256) (_hcd : cd < 256) :
    (read_distance true 4 [header, hd, ld, cd] =
      if header = 0xFF ∧ (0xFF + hd + ld) % 256 = cd then
        some ((((hd <<< 8) + ld : ℕ) : ℚ) / 10)
      else none) ∧
    (header = 0xFF → (0xFF + hd + ld) % 256 = cd →
      (∀ x, x < 256 → x ≠ hd → read_distance true 4 [0xFF, x, ld, cd] = none) ∧
      (∀ x, x < 256 → x ≠ ld → read_distance true 4 [0xFF, hd, x, cd] = none) ∧
      (∀ x, x < 256 → x ≠ cd →
        read_distance true 4 [0xFF, hd, ld, x] = none)) := by
  constructor
  · rw [read_distance_eval]
    by_cases h1 : header = 0xFF
    · by_cases h2 : (0xFF + hd + ld) % 256 = cd
      · rw [if_pos h1, if_pos h2, if_pos ⟨h1, h2⟩]
      · rw [if_pos h1, if_neg h2, if_neg (by tauto)]
    · rw [if_neg h1, if_neg (by tauto)]
  · intro hhd hsum
    refine ⟨fun x hx hne => ?_, fun x hx hne => ?_, fun x hx hne => ?_⟩
    · rw [read_distance_eval, if_pos rfl, if_neg (by omega)]
    · rw [read_distance_eval, if_pos rfl, if_neg (by omega)]
    · rw [read_distance_eval, if_pos rfl, if_neg (by omega)]

/-- Closed witness for C5: the valid frame `FF 01 02 02` (checksum
`(0xFF+1+2) mod 256 = 2`) decodes to 25.8 cm, and corrupting its H byte to
3 is rejected. -/
theorem proximity_frame_validation_witness :
    read_distance true 4 [0xFF, 1, 2, 2] = some ((258 : ℚ) / 10) ∧
    read_distance true 4 [0xFF, 3, 2, 2] = none := by
  constructor
  · have h := (proximity_frame_validation 0xFF 1 2 2 (by norm_num)
      (by norm_num) (by norm_num)).1
    rw [if_pos ⟨rfl, by norm_num⟩] at h
    simpa using h
  · exact ((proximity_frame_validation 0xFF 1 2 2 (by norm_num) (by norm_num)
      (by norm_num)).2 rfl (by norm_num)).1 3 (by norm_num) (by norm_num)

/-- C6: proximity emission: in a monitor cycle, a sensor whose read
yields a distance invokes the observer callback exactly when the distance
is positive, carrying `alert = (distance < threshold)`; a non-positive
distance (dead zone) emits nothing, as does a failed read. -/
theorem proximity_emission (name : String) (threshold : ℚ)
    (reading : Option ℚ) :
    (∀ d, reading = some d →
      ((cycleEmissions name threshold reading ≠ []) ↔ 0 < d) ∧
      (0 < d → cycleEmissions name threshold reading =
        [{ sensor := name, distance_cm := d, threshold_cm := threshold,
           alert := decide (d < threshold) }]) ∧
      (d ≤ 0 → cycleEmissions name threshold reading = [])) ∧
    (reading = none → cycleEmissions name threshold reading = []) := by
  constructor
  · intro d hd
    subst hd
    refine ⟨?_, fun hpos => ?_, fun hnonpos => ?_⟩
    · simp only [cycleEmissions]
      split_ifs with hpos
      · simpa using hpos
      · simpa using hpos
    · simp only [cycleEmissions, if_pos hpos]
    · simp only [cycleEmissions]
      rw [if_neg (not_lt.mpr hnonpos)]
  · intro hnone
    subst hnone
    rfl

/-- Closed witness for C6: a 12 cm reading against a 30 cm threshold emits
one alerting event; a 0 cm reading emits nothing. -/
theorem proximity_emission_witness :
    cycleEmissions "ultrasonic_front" 30 (some 12) =
      [{ sensor := "ultrasonic_front", distance_cm := 12, threshold_cm := 30,
         alert := true }] ∧
    cycleEmissions "ultrasonic_front" 30 (some 0) = [] := by
  constructor
  · have h := (((proximity_emission "ultrasonic_front" 30 (some 12)).1 12
      rfl).2.1 (by norm_num))
    simpa using h
  · exact ((proximity_emission "ultrasonic_front" 30 (some 0)).1 0 rfl).2.2
      le_rfl

end Ultrasonic

namespace Lidar

/-- C7 counterexample: under the claim's own scenario — polling every
100 ms with the sensor decoding to −100 continuously for 5 s (50 polls),
max range 500 cm, error cooldown 30 s — the loop emits *zero* error events,
not exactly one: a decoded −100 resets the retry counter and is published
as an out-of-range reading, so it never reaches the error path. -/
theorem sentinel_scenario_emits_no_error :
    (runDetector 500 30 (scenarioTrace (some (-100)))
      { retry_count := 0, last_error_time := 0 }).2 = [] := by
  decide

theorem foldl_det_nones (max_range : Int) (cooldown : ℚ) :
    ∀ (ps : List (ℚ × Option Int)) (st : DetectorState) (ev : List ErrorEvent),
    (∀ p ∈ ps, p.2 = none) → st.retry_count + ps.length ≤ 49 →
    List.foldl
      (fun acc p =>
        let out := detectorStep max_range cooldown p.1 p.2 acc.1
        (out.1, acc.2 ++ out.2.2.toList))
      (st, ev) ps =
      ({ retry_count := st.retry_count + ps.length,
         last_error_time := st.last_error_time }, ev) := by
  intro ps
  induction ps with
  | nil => intro st ev _ _; simp
  | cons p rest ih =>
    intro st ev hnone hlen
    have hp : p.2 = none := hnone p (List.mem_cons_self p rest)
    simp only [List.foldl_cons, hp]
    have hstep : detectorStep max_range cooldown p.1 none st =
        ({ retry_count := st.retry_count + 1,
           last_error_time := st.last_error_time }, none, none) := by
      simp only [detectorStep]
      rw [if_neg]
      intro hcontra
      simp only [List.length_cons] at hlen
      omega
    rw [hstep]
    have h2 := ih ⟨st.retry_count + 1, st.last_error_time⟩ ev
      (fun q hq => hnone q (List.mem_cons_of_mem p hq))
      (by simp only [List.length_cons] at hlen; simp; omega)
    simp only [Option.toList_none, List.append_nil] at h2 ⊢
    rw [h2]
    simp only [List.length_cons]
    congr 2
    omega

/-- C7 (amended): with the same timing, if the sensor produces *no
decodable frame* for the whole 5 s window (50 consecutive failures at
100 ms), then exactly one `communication_timeout` error event is emitted
in that window (at the 50th failure, since the hard-coded emission
threshold is `retry_count >= 50 and retry_count % 50 == 0`, not 5); and in
general a step emits an error event only when the response was not
decoded, the new retry count crosses that threshold, and the per-kind
cooldown since the last emission has elapsed. -/
theorem error_rate_limiting
    (max_range : Int) (cooldown t : ℚ) (res : Option Int)
    (st : DetectorState) :
    (runDetector 500 30 (scenarioTrace none)
        { retry_count := 0, last_error_time := 0 }).2 =
      [{ errType := "communication_timeout", errCode := "LD_ERR_001",
         severity := "warning", retry_count := 50 }] ∧
    ((detectorStep max_range cooldown t res st).2.2.isSome →
      res = none ∧ 50 ≤ st.retry_count + 1 ∧ (st.retry_count + 1) % 50 = 0 ∧
        cooldown < t - st.last_error_time) := by
  constructor
  · unfold runDetector scenarioTrace
    have hinner := foldl_det_nones 500 30
        ((List.range 49).map
          (fun (i : ℕ) => ((100 + (i : ℚ) / 10 : ℚ), (none : Option Int))))
        ⟨0, 0⟩ []
        (by intro q hq
            simp only [List.mem_map] at hq
            obtain ⟨i, _, hi⟩ := hq
            rw [← hi])
        (by simp)
    rw [List.range_succ, List.map_append, List.foldl_append, hinner]
    simp only [List.map_cons, List.map_nil, List.foldl_cons, List.foldl_nil,
      List.length_map, List.length_range, Nat.zero_add, Nat.cast_ofNat]
    have hstep : detectorStep 500 30 (100 + (49 : ℚ) / 10) none
        { retry_count := 49, last_error_time := 0 } =
        ({ retry_count := 50, last_error_time := 100 + (49 : ℚ) / 10 }, none,
         some { errType := "communication_timeout", errCode := "LD_ERR_001",
                severity := "warning", retry_count := 50 }) := by
      simp only [detectorStep, send_error]
      rw [if_pos (by norm_num), if_pos (by norm_num)]
    rw [hstep]
    simp
  · intro hev
    match res with
    | some v => simp [detectorStep] at hev
    | none =>
      refine ⟨rfl, ?_⟩
      simp only [detectorStep] at hev
      split_ifs at hev with h1
      · simp only [send_error] at hev
        split_ifs at hev with h2
        · exact ⟨h1.1, h1.2, h2⟩
        · simp at hev
      · simp at hev

/-- Closed witness for C7's amended general condition, at the step that
fires in the scenario: the 50th consecutive failure with the cooldown
elapsed. -/
theorem error_rate_limiting_witness :
    (none : Option Int) = none ∧ 50 ≤ 49 + 1 ∧ (49 + 1) % 50 = 0 ∧
      (30 : ℚ) < 104.9 - 0 :=
  (error_rate_limiting 500 30 104.9 none
    { retry_count := 49, last_error_time := 0 }).2
    (by simp only [detectorStep, send_error]
        rw [if_pos (by norm_num), if_pos (by norm_num)]
        rfl)

end Lidar

namespace Telemetry

theorem workerRun_published_mono {α : Type} :
    ∀ (conns : List Bool) (s : QueueState α) (x : α),
    x ∈ s.published → x ∈ (workerRun conns s).published := by
  intro conns
  induction conns with
  | nil => intro s x hx; exact hx
  | cons c ct ih =>
    intro s x hx
    show x ∈ (workerRun ct (workerStep c s)).published
    apply ih
    match hq : s.queue with
    | [] => simpa [workerStep, hq] using hx
    | q :: rest =>
      by_cases hc : c = true
      · subst hc
        simp only [workerStep, hq]
        exact List.mem_append_left _ hx
      · have hc' : c = false := by
          cases c
          · rfl
          · exact absurd rfl hc
        subst hc'
        simpa [workerStep, hq] using hx

theorem workerRun_delivers {α : Type} :
    ∀ (conns : List Bool) (s : QueueState α),
    (∀ b ∈ conns, b = true) → s.queue.length ≤ conns.length →
    ∀ p ∈ s.queue, p ∈ (workerRun conns s).published := by
  intro conns
  induction conns with
  | nil =>
    intro s _ hlen p hp
    have hq : s.queue = [] :=
      List.eq_nil_of_length_eq_zero (by simpa using hlen)
    rw [hq] at hp
    simp at hp
  | cons c ct ih =>
    intro s hall hlen p hp
    have hc : c = true := hall c (List.mem_cons_self c ct)
    subst hc
    show p ∈ (workerRun ct (workerStep true s)).published
    match hq : s.queue with
    | [] => rw [hq] at hp; simp at hp
    | q :: rest =>
      have hstep : workerStep true s =
          { queue := rest, published := s.published ++ [q] } := by
        simp [workerStep, hq]
      rw [hstep]
      rw [hq] at hp
      rcases List.mem_cons.mp hp with h | h
      · subst h
        exact workerRun_published_mono ct _ p (by simp)
      · refine ih { queue := rest, published := s.published ++ [q] }
          (fun b hb => hall b (List.mem_cons_of_mem _ hb)) ?_ p h
        rw [hq] at hlen
        simp only [List.length_cons] at hlen ⊢
        omega

/-- C9: dispatch queue delivery: every iteration of the worker either
publishes the dequeued payload or pushes it back to the tail — the
multiset of payloads in the queue plus those published is preserved, so
nothing is silently dropped — and once the sink is available, running the
worker for at least as many iterations as there are pending payloads
publishes every payload that was in the queue (possibly reordered). -/
theorem dispatch_queue_no_loss_and_delivery :
    (∀ (α : Type) (c : Bool) (s : QueueState α),
      ((workerStep c s).queue ++ (workerStep c s).published).Perm
        (s.queue ++ s.published)) ∧
    (∀ (α : Type) (conns : List Bool) (s : QueueState α),
      (∀ b ∈ conns, b = true) → s.queue.length ≤ conns.length →
      ∀ p ∈ s.queue, p ∈ (workerRun conns s).published) := by
  constructor
  · intro α c s
    match hq : s.queue with
    | [] => simp [workerStep, hq]
    | q :: rest =>
      by_cases hc : c = true
      · subst hc
        simp only [workerStep, hq, if_true]
        rw [show rest ++ (s.published ++ [q]) =
            (rest ++ s.published) ++ [q] from (List.append_assoc _ _ _).symm]
        exact List.perm_append_singleton _ _
      · have hc' : c = false := by
          cases c
          · rfl
          · exact absurd rfl hc
        subst hc'
        simp only [workerStep, hq, if_false]
        exact (List.perm_append_singleton q rest).append_right s.published
  · intro α conns s hall hlen p hp
    exact workerRun_delivers conns s hall hlen p hp

/-- Closed witness for C9: two pending payloads, two connected iterations —
the step preserves the payload multiset and both payloads get published. -/
theorem dispatch_queue_witness :
    (((workerStep true ({ queue := [1, 2], published := [] } :
        QueueState ℕ)).queue ++
      (workerStep true ({ queue := [1, 2], published := [] } :
        QueueState ℕ)).published).Perm ([1, 2] ++ [])) ∧
    (1 : ℕ) ∈ (workerRun [true, true]
      ({ queue := [1, 2], published := [] } : QueueState ℕ)).published :=
  ⟨dispatch_queue_no_loss_and_delivery.1 ℕ true
      { queue := [1, 2], published := [] },
   dispatch_queue_no_loss_and_delivery.2 ℕ [true, true]
      { queue := [1, 2], published := [] }
      (by decide)
      (by simp) 1 (by simp)⟩

end Telemetry

namespace Tamper

/-- C10: the tilt-angle helper is total: for every pair of 3-vectors it
returns a value in `[0, 180]` degrees, and when the product of the two
vector norms is zero (e.g. after an all-zero calibration) it returns 0
instead of dividing by zero; the arccos argument is clamped to `[-1, 1]`
by construction, so no domain error is possible. -/
theorem angle_total (v1 v2 : V3) :
    0 ≤ angle v1 v2 ∧ angle v1 v2 ≤ 180 ∧
    (Real.sqrt (v1.1 * v1.1 + v1.2.1 * v1.2.1 + v1.2.2 * v1.2.2) *
        Real.sqrt (v2.1 * v2.1 + v2.2.1 * v2.2.1 + v2.2.2 * v2.2.2) = 0 →
      angle v1 v2 = 0) := by
  simp only [angle]
  by_cases h : Real.sqrt (v1.1 * v1.1 + v1.2.1 * v1.2.1 + v1.2.2 * v1.2.2) *
      Real.sqrt (v2.1 * v2.1 + v2.2.1 * v2.2.1 + v2.2.2 * v2.2.2) = 0
  · rw [if_pos h]
    refine ⟨le_refl 0, by norm_num, fun _ => rfl⟩
  · rw [if_neg h]
    have hpi : (0 : ℝ) < Real.pi := Real.pi_pos
    have harc0 : 0 ≤ Real.arccos (max (-1) (min 1
        ((v1.1 * v2.1 + v1.2.1 * v2.2.1 + v1.2.2 * v2.2.2) /
          (Real.sqrt (v1.1 * v1.1 + v1.2.1 * v1.2.1 + v1.2.2 * v1.2.2) *
            Real.sqrt (v2.1 * v2.1 + v2.2.1 * v2.2.1 + v2.2.2 * v2.2.2))))) :=
      Real.arccos_nonneg _
    have harcpi : Real.arccos (max (-1) (min 1
        ((v1.1 * v2.1 + v1.2.1 * v2.2.1 + v1.2.2 * v2.2.2) /
          (Real.sqrt (v1.1 * v1.1 + v1.2.1 * v1.2.1 + v1.2.2 * v1.2.2) *
            Real.sqrt (v2.1 * v2.1 + v2.2.1 * v2.2.1 + v2.2.2 * v2.2.2))))) ≤
        Real.pi := Real.arccos_le_pi _
    refine ⟨mul_nonneg harc0 (by positivity), ?_, fun hz => absurd hz h⟩
    calc Real.arccos _ * (180 / Real.pi) ≤ Real.pi * (180 / Real.pi) :=
          mul_le_mul_of_nonneg_right harcpi (by positivity)
      _ = 180 := by field_simp

/-- Closed witness for C10: the zero-vector pair (as after an all-zero
calibration) yields an angle of 0. -/
theorem angle_total_witness : angle ((0 : ℝ), (0 : ℝ), (0 : ℝ)) (0, 0, 0) = 0 :=
  (angle_total ((0 : ℝ), (0 : ℝ), (0 : ℝ)) (0, 0, 0)).2.2 (by norm_num)

theorem pushWindow_length_pos {α : Type} (maxlen : Nat) (h : 0 < maxlen)
    (w : List α) (x : α) : 0 < (pushWindow maxlen w x).length := by
  simp only [pushWindow]
  split_ifs with hc
  · simp only [List.length_drop, List.length_append, List.length_cons]
    simp only [List.length_append, List.length_cons] at hc
    omega
  · simp

end Tamper

namespace Tamper

/-- C8 (amended): the trigger decision equals the claimed formula with
"strictly more than 60%" in place of "at least 60%": for every baseline,
current accel/gyro sample and window contents (windows include the current
magnitudes, appended before the check), the monitor triggers iff
`(tilt > tilt_threshold AND the fraction of gyro-window samples exceeding
gyro_threshold is > 0.6) OR (fraction of linear-window samples exceeding
linear_threshold is > 0.6) OR (current linear deviation magnitude > 0.4 g
OR current gyro magnitude > 120 dps)`, where tilt is computed by `angle`
(dot product / arccos with the cosine clamped to `[-1, 1]`). -/
theorem tamper_trigger_formula (tilt_ths gyro_ths linear_ths : ℝ)
    (window_size : Nat) (hws : 0 < window_size) (baseline accel gyro : V3)
    (gyro_window lin_window : List ℝ) :
    tamperTrigger tilt_ths gyro_ths linear_ths window_size baseline accel
        gyro gyro_window lin_window ↔
      ((tilt_ths < angle accel baseline ∧
          0.6 < (countAbove gyro_ths
              (pushWindow window_size gyro_window (gyro_mag gyro)) : ℝ) /
            ((pushWindow window_size gyro_window (gyro_mag gyro)).length : ℝ)) ∨
        0.6 < (countAbove linear_ths
            (pushWindow window_size lin_window (lin_mag baseline accel)) : ℝ) /
          ((pushWindow window_size lin_window (lin_mag baseline accel)).length : ℝ) ∨
        (0.4 < lin_mag baseline accel ∨ 120 < gyro_mag gyro)) := by
  have hg : (0 : ℝ) <
      ((pushWindow window_size gyro_window (gyro_mag gyro)).length : ℝ) := by
    exact_mod_cast pushWindow_length_pos window_size hws gyro_window
      (gyro_mag gyro)
  have hl : (0 : ℝ) <
      ((pushWindow window_size lin_window (lin_mag baseline accel)).length : ℝ) := by
    exact_mod_cast pushWindow_length_pos window_size hws lin_window
      (lin_mag baseline accel)
  simp only [tamperTrigger]
  rw [show (0.6 * ((pushWindow window_size gyro_window (gyro_mag gyro)).length : ℝ) <
      (countAbove gyro_ths (pushWindow window_size gyro_window (gyro_mag gyro)) : ℝ)) =
      (0.6 < (countAbove gyro_ths (pushWindow window_size gyro_window (gyro_mag gyro)) : ℝ) /
        ((pushWindow window_size gyro_window (gyro_mag gyro)).length : ℝ)) from
    propext (lt_div_iff₀ hg).symm]
  rw [show (0.6 * ((pushWindow window_size lin_window (lin_mag baseline accel)).length : ℝ) <
      (countAbove linear_ths (pushWindow window_size lin_window (lin_mag baseline accel)) : ℝ)) =
      (0.6 < (countAbove linear_ths (pushWindow window_size lin_window (lin_mag baseline accel)) : ℝ) /
        ((pushWindow window_size lin_window (lin_mag baseline accel)).length : ℝ)) from
    propext (lt_div_iff₀ hl).symm]

theorem tamperTrigger_concrete_false :
    ¬tamperTrigger 12 25 (12 / 100) 16 ((0 : ℝ), (0 : ℝ), (1 : ℝ))
      ((0 : ℝ), (0 : ℝ), (1 : ℝ)) ((0 : ℝ), (0 : ℝ), (0 : ℝ))
      [0, 0, 0, 0, 0, 0, 0, 0, 0] [1, 1, 1, 1, 1, 1, 0, 0, 0] := by
  have hlin : lin_mag ((0 : ℝ), (0 : ℝ), (1 : ℝ)) ((0 : ℝ), (0 : ℝ), (1 : ℝ)) = 0 := by
    simp [lin_mag]
  have hgyro : gyro_mag ((0 : ℝ), (0 : ℝ), (0 : ℝ)) = 0 := by
    simp [gyro_mag]
  have hangle : angle ((0 : ℝ), (0 : ℝ), (1 : ℝ)) ((0 : ℝ), (0 : ℝ), (1 : ℝ)) = 0 := by
    simp only [angle]
    norm_num [Real.sqrt_one, Real.arccos_one]
  have hpushg : pushWindow 16 [(0 : ℝ), 0, 0, 0, 0, 0, 0, 0, 0] 0 =
      [0, 0, 0, 0, 0, 0, 0, 0, 0, 0] := by
    simp [pushWindow]
  have hpushl : pushWindow 16 [(1 : ℝ), 1, 1, 1, 1, 1, 0, 0, 0] 0 =
      [1, 1, 1, 1, 1, 1, 0, 0, 0, 0] := by
    simp [pushWindow]
  have hcg : countAbove 25 [(0 : ℝ), 0, 0, 0, 0, 0, 0, 0, 0, 0] = 0 := by
    norm_num [countAbove]
  have hcl : countAbove (12 / 100) [(1 : ℝ), 1, 1, 1, 1, 1, 0, 0, 0, 0] = 6 := by
    norm_num [countAbove]
  simp only [tamperTrigger, hlin, hgyro, hangle, hpushg, hpushl, hcg, hcl]
  norm_num

/-- Closed witness for C8's amended formula: the equivalence instantiated
at a concrete sample (window size 16, baseline and accel `(0,0,1)`, gyro
zero, two 9-sample windows). -/
theorem tamper_trigger_formula_witness :
    tamperTrigger 12 25 (12 / 100) 16 ((0 : ℝ), (0 : ℝ), (1 : ℝ))
        ((0 : ℝ), (0 : ℝ), (1 : ℝ)) ((0 : ℝ), (0 : ℝ), (0 : ℝ))
        [0, 0, 0, 0, 0, 0, 0, 0, 0] [1, 1, 1, 1, 1, 1, 0, 0, 0] ↔
      ((12 < angle ((0 : ℝ), (0 : ℝ), (1 : ℝ)) ((0 : ℝ), (0 : ℝ), (1 : ℝ)) ∧
          0.6 < (countAbove 25 (pushWindow 16 [(0 : ℝ), 0, 0, 0, 0, 0, 0, 0, 0]
              (gyro_mag ((0 : ℝ), (0 : ℝ), (0 : ℝ)))) : ℝ) /
            ((pushWindow 16 [(0 : ℝ), 0, 0, 0, 0, 0, 0, 0, 0]
              (gyro_mag ((0 : ℝ), (0 : ℝ), (0 : ℝ)))).length : ℝ)) ∨
        0.6 < (countAbove (12 / 100) (pushWindow 16 [(1 : ℝ), 1, 1, 1, 1, 1, 0, 0, 0]
            (lin_mag ((0 : ℝ), (0 : ℝ), (1 : ℝ)) ((0 : ℝ), (0 : ℝ), (1 : ℝ)))) : ℝ) /
          ((pushWindow 16 [(1 : ℝ), 1, 1, 1, 1, 1, 0, 0, 0]
            (lin_mag ((0 : ℝ), (0 : ℝ), (1 : ℝ)) ((0 : ℝ), (0 : ℝ), (1 : ℝ)))).length : ℝ) ∨
        (0.4 < lin_mag ((0 : ℝ), (0 : ℝ), (1 : ℝ)) ((0 : ℝ), (0 : ℝ), (1 : ℝ)) ∨
          120 < gyro_mag ((0 : ℝ), (0 : ℝ), (0 : ℝ)))) :=
  tamper_trigger_formula 12 25 (12 / 100) 16 (by norm_num)
    ((0 : ℝ), (0 : ℝ), (1 : ℝ)) ((0 : ℝ), (0 : ℝ), (1 : ℝ))
    ((0 : ℝ), (0 : ℝ), (0 : ℝ))
    [0, 0, 0, 0, 0, 0, 0, 0, 0] [1, 1, 1, 1, 1, 1, 0, 0, 0]

/-- C8 counterexample: the claim's "at least 60%" reading disagrees
with the code's strict `> 0.6 * len` at a window of length 10 with exactly
6 samples above threshold: the code does not trigger while the claimed
formula does, so the stated equivalence is false. -/
theorem tamper_trigger_claim_counterexample :
    ¬(tamperTrigger 12 25 (12 / 100) 16 ((0 : ℝ), (0 : ℝ), (1 : ℝ))
        ((0 : ℝ), (0 : ℝ), (1 : ℝ)) ((0 : ℝ), (0 : ℝ), (0 : ℝ))
        [0, 0, 0, 0, 0, 0, 0, 0, 0] [1, 1, 1, 1, 1, 1, 0, 0, 0] ↔
      claimTrigger 12 25 (12 / 100) 16 ((0 : ℝ), (0 : ℝ), (1 : ℝ))
        ((0 : ℝ), (0 : ℝ), (1 : ℝ)) ((0 : ℝ), (0 : ℝ), (0 : ℝ))
        [0, 0, 0, 0, 0, 0, 0, 0, 0] [1, 1, 1, 1, 1, 1, 0, 0, 0]) := by
  have hlin : lin_mag ((0 : ℝ), (0 : ℝ), (1 : ℝ)) ((0 : ℝ), (0 : ℝ), (1 : ℝ)) = 0 := by
    simp [lin_mag]
  have hgyro : gyro_mag ((0 : ℝ), (0 : ℝ), (0 : ℝ)) = 0 := by
    simp [gyro_mag]
  have hpushl : pushWindow 16 [(1 : ℝ), 1, 1, 1, 1, 1, 0, 0, 0] 0 =
      [1, 1, 1, 1, 1, 1, 0, 0, 0, 0] := by
    simp [pushWindow]
  have hcl : countAbove (12 / 100) [(1 : ℝ), 1, 1, 1, 1, 1, 0, 0, 0, 0] = 6 := by
    norm_num [countAbove]
  intro h
  have hB : claimTrigger 12 25 (12 / 100) 16 ((0 : ℝ), (0 : ℝ), (1 : ℝ))
      ((0 : ℝ), (0 : ℝ), (1 : ℝ)) ((0 : ℝ), (0 : ℝ), (0 : ℝ))
      [0, 0, 0, 0, 0, 0, 0, 0, 0] [1, 1, 1, 1, 1, 1, 0, 0, 0] := by
    simp only [claimTrigger, hlin, hgyro, hpushl, hcl]
    refine Or.inr (Or.inl ?_)
    norm_num
  exact absurd (h.mpr hB) tamperTrigger_concrete_false

end Tamper
